import Mathlib

/-!
Verification of the esp32-wifi-manager credential store, candidate
selection, scheduler loop dispatch and soft-AP timeout arithmetic.

The definitions below are a shallow embedding of `src/wifimanager.cpp`
(class `WIFIMANAGER`).  Arduino `String` is modelled by `String`,
the fixed array `apList[WIFIMANAGER_MAX_APS]` by a `List` of length
`WIFIMANAGER_MAX_APS`, the NVS key/value store by a list of optional
entries (slot `i` has a stored `apName{i}`/`apPass{i}` pair iff the
entry is `some`), and unsigned 64-bit arithmetic by `Nat` reduced
modulo `2 ^ 64`.
-/

/-- Constant `WIFIMANAGER_MAX_APS` from `wifimanager.h` (default 4). -/
def WIFIMANAGER_MAX_APS : Nat := 4

/-- Structure `apCredentials_t` from `wifimanager.h`: one slot of the stored AP list. -/
structure ApCredential where
  apName : String
  apPass : String
deriving DecidableEq, Repr

/-- The empty slot value (`apName == ""`, `apPass == ""`). -/
def emptySlot : ApCredential := ⟨"", ""⟩

/-- In-memory and persisted state of the credential store:
`apList` (the fixed array), the cached `configuredSSIDs` counter and the
NVS contents (`nvs`, one optional stored pair per slot index). -/
structure WMState where
  apList : List ApCredential
  configuredSSIDs : Nat
  nvs : List (Option ApCredential)
deriving DecidableEq, Repr

/-- Model of `WIFIMANAGER::writeToNVS` (wifimanager.cpp:254): clears the
namespace and stores name and pass for every slot whose name is
non-empty; slots with an empty name leave no key behind.  The NVS
open failure path is not modelled (the model store always opens). -/
def writeToNVS (st : WMState) : WMState :=
  { st with nvs := st.apList.map (fun e => if e.apName = "" then none else some e) }

/-- Model of `WIFIMANAGER::loadFromNVS` (wifimanager.cpp:223): resets the counter,
clears the in-memory list and restores every slot whose stored name is a
present key with a non-empty value, counting each restored slot. -/
def loadFromNVS (st : WMState) : WMState :=
  let restored := st.nvs.map (fun o =>
    match o with
    | none => emptySlot
    | some e => if 0 < e.apName.length then e else emptySlot)
  { st with
      apList := restored,
      configuredSSIDs := restored.countP (fun e => decide (e.apName ≠ "")) }

/-- The scan of `addWifi`'s for-loop for the first slot with
`apName == ""`, returning its index. -/
def firstEmptySlot : List ApCredential → Nat → Option Nat
  | [], _ => none
  | e :: rest, i => if e.apName = "" then some i else firstEmptySlot rest (i + 1)

/-- Outcome of `WIFIMANAGER::addWifi`; the three `false` returns of the
source are distinguished by the log message of the branch taken
("No SSID given or ssid too long", "Passphrase too long",
"No slot available to store SSID credentials"). -/
inductive AddResult where
  | invalidName
  | invalidSecret
  | storeFull
  | ok
deriving DecidableEq, Repr

/-- Model of `WIFIMANAGER::addWifi` (wifimanager.cpp:284): validates the name
length (1..31) and pass length (≤ 63), stores the credential in the
first free slot, increments `configuredSSIDs` and optionally persists. -/
def addWifi (st : WMState) (apName apPass : String) (updateNVS : Bool) :
    WMState × AddResult :=
  if apName.length < 1 ∨ 31 < apName.length then (st, .invalidName)
  else if 63 < apPass.length then (st, .invalidSecret)
  else
    match firstEmptySlot st.apList 0 with
    | some i =>
      let st' := { st with
        apList := st.apList.set i ⟨apName, apPass⟩,
        configuredSSIDs := st.configuredSSIDs + 1 }
      (if updateNVS then writeToNVS st' else st', .ok)
    | none => (st, .storeFull)

/-- Model of `WIFIMANAGER::delWifi(uint8_t)` (wifimanager.cpp:315): clears the
slot when the id is in range and persists; note that the source does
not decrement `configuredSSIDs`. -/
def delWifiId (st : WMState) (apId : Nat) : WMState × Bool :=
  if apId < WIFIMANAGER_MAX_APS then
    (writeToNVS { st with apList := st.apList.set apId emptySlot }, true)
  else (st, false)

/-- Model of `WIFIMANAGER::delWifi(String)` (wifimanager.cpp:330): walks all slot
indices, deletes (and persists) each slot whose current name equals the
argument, and persists once more when at least one slot was deleted. -/
def delWifiName (st : WMState) (apName : String) : WMState × Bool :=
  let fin := (List.range WIFIMANAGER_MAX_APS).foldl
    (fun (acc : WMState × Nat) i =>
      if (acc.1.apList.getD i emptySlot).apName = apName then
        let d := delWifiId acc.1 i
        (d.1, if d.2 then acc.2 + 1 else acc.2)
      else acc)
    (st, 0)
  if 0 < fin.2 then (writeToNVS fin.1, true) else (fin.1, false)

/-- Ground-truth number of populated slots, by full enumeration. -/
def populatedCount (l : List ApCredential) : Nat :=
  l.countP (fun e => decide (e.apName ≠ ""))

/-- Model of the `WIFIMANAGER::getApEntry` inner loop (wifimanager.cpp:385): the index
of the first slot with a non-zero name length, or `WIFIMANAGER_MAX_APS`. -/
def getApEntryAux : List ApCredential → Nat → Nat
  | [], _ => WIFIMANAGER_MAX_APS
  | e :: rest, i => if 0 < e.apName.length then i else getApEntryAux rest (i + 1)

/-- Model of `WIFIMANAGER::getApEntry` (wifimanager.cpp:385). -/
def getApEntry (l : List ApCredential) : Nat :=
  getApEntryAux l 0

/-- How `WIFIMANAGER::tryConnect` (wifimanager.cpp:453) decides whether
to scan: no configuration at all, the single-credential direct path
(`configuredSSIDs == 1`), or the scan path. -/
inductive ConnectPlan where
  | noConfig
  | direct (slot : Nat)
  | scan
deriving DecidableEq, Repr

/-- The scan-or-direct decision of `WIFIMANAGER::tryConnect`
(wifimanager.cpp:454-468), as a function of the store state. -/
def tryConnectPlan (st : WMState) : ConnectPlan :=
  if st.configuredSSIDs = 0 then .noConfig
  else if st.configuredSSIDs = 1 then .direct (getApEntry st.apList)
  else .scan

/-- The all-empty initial state (fresh object, empty NVS namespace). -/
def st0 : WMState :=
  ⟨List.replicate WIFIMANAGER_MAX_APS emptySlot, 0,
   List.replicate WIFIMANAGER_MAX_APS none⟩

/-- One result row of `WiFi.getNetworkInfo` as consumed by
`WIFIMANAGER::tryConnect` (ssid, encryption type and RSSI; bssid and
channel are unused by the selection loop). -/
structure ScanResult where
  ssid : String
  encryptionType : Nat
  rssi : Int
deriving DecidableEq, Repr

/-- Value of `WIFI_AUTH_OPEN` in the ESP-IDF enumeration. -/
def WIFI_AUTH_OPEN : Nat := 0

/-- Value of `INT_MIN`, the sentinel initial value of `choosenAp`/`choosenRssi`. -/
def intMin : Int := -2147483648

/-- Body of the inner slot loop of `WIFIMANAGER::tryConnect`
(wifimanager.cpp:493-502), acting on the accumulator
`(choosenAp, choosenRssi)` for one indexed slot. -/
def slotStep (r : ScanResult) (acc : Int × Int) (p : Nat × ApCredential) :
    Int × Int :=
  if p.2.apName.length = 0 ∨ p.2.apName ≠ r.ssid then acc
  else if acc.2 < r.rssi then
    if r.encryptionType = WIFI_AUTH_OPEN ∨ 0 < p.2.apPass.length then
      ((p.1 : Int), r.rssi)
    else acc
  else acc

/-- Body of the outer scan-result loop of `WIFIMANAGER::tryConnect`
(wifimanager.cpp:486-503). -/
def scanStep (ps : List (Nat × ApCredential)) (acc : Int × Int)
    (r : ScanResult) : Int × Int :=
  ps.foldl (slotStep r) acc

/-- The candidate-selection loops of `WIFIMANAGER::tryConnect`
(wifimanager.cpp:485-504): the final `(choosenAp, choosenRssi)` pair. -/
def selectCandidate (slots : List ApCredential) (scan : List ScanResult) :
    Int × Int :=
  scan.foldl (scanStep slots.enum) (intMin, intMin)

/-- A scan result paired with a slot is eligible when the slot is
populated, its name equals the scanned ssid, and the network is open or
the stored secret is non-empty (the conditions of wifimanager.cpp:494
and wifimanager.cpp:497). -/
def EligPair (r : ScanResult) (p : Nat × ApCredential) : Prop :=
  p.2.apName.length ≠ 0 ∧ p.2.apName = r.ssid ∧
    (r.encryptionType = WIFI_AUTH_OPEN ∨ 0 < p.2.apPass.length)

instance (r : ScanResult) (p : Nat × ApCredential) : Decidable (EligPair r p) := by
  unfold EligPair
  infer_instance

/-- The first slot (in index order) making a scan result eligible. -/
def firstElig (ps : List (Nat × ApCredential)) (r : ScanResult) :
    Option (Nat × ApCredential) :=
  ps.find? (fun p => decide (EligPair r p))

/-- A scan result has some eligible slot. -/
def elig (ps : List (Nat × ApCredential)) (r : ScanResult) : Bool :=
  (firstElig ps r).isSome

/-- Terminal decision of the scan path of `WIFIMANAGER::tryConnect`
(wifimanager.cpp:507-515): either no candidate was found (`choosenAp`
still `INT_MIN`, return `false` with no `tryConnectSpecific` call) or a
connection attempt on the chosen slot. -/
inductive SelectOutcome where
  | noCandidates
  | attempt (slot : Int)
deriving DecidableEq, Repr

/-- The outcome of the multi-credential scan path of `tryConnect`. -/
def tryConnectMulti (slots : List ApCredential) (scan : List ScanResult) :
    SelectOutcome :=
  if (selectCandidate slots scan).1 = intMin then .noCandidates
  else .attempt (selectCandidate slots scan).1

/-- Constant `2 ^ 64`, the modulus of `uint64_t` arithmetic. -/
def UINT64_MOD : Nat := 18446744073709551616

/-- Value of `millis() - startApTimeMillis` at wifimanager.cpp:399, as the
`uint64_t` wrap-around difference. -/
def apElapsed (startedAp now : Nat) : Nat :=
  (now % UINT64_MOD + (UINT64_MOD - startedAp % UINT64_MOD)) % UINT64_MOD

/-- Value of `(timeoutApMillis - (millis() - startApTimeMillis)) / 1000` at
wifimanager.cpp:399 in `uint64_t` arithmetic, with
`timeoutApMillis = 120000`. -/
def apRemainRaw (startedAp now : Nat) : Nat :=
  ((120000 + (UINT64_MOD - apElapsed startedAp now)) % UINT64_MOD) / 1000

/-- Model of `WIFIMANAGER::getSoftApTimeRemaining` (wifimanager.cpp:398-402):
the raw remaining seconds, clamped to 0 when greater than
`timeoutApMillis`. -/
def getSoftApTimeRemaining (startedAp now : Nat) : Nat :=
  if 120000 < apRemainRaw startedAp now then 0 else apRemainRaw startedAp now

/-- Radio mode `wifi_mode_t` as observed through `WiFi.getMode()`. -/
inductive WifiMode where
  | nullMode
  | sta
  | ap
  | apsta
deriving DecidableEq, Repr

/-- What one pass of `WIFIMANAGER::loop` observes from the platform:
the radio mode, whether `WiFi.waitForConnectResult() == WL_CONNECTED`,
the current `WiFi.SSID()`, the soft-AP client count, and the AP timer
values. -/
structure LoopObs where
  mode : WifiMode
  connected : Bool
  ssid : String
  clients : Nat
  startedAp : Nat
  now : Nat
deriving DecidableEq, Repr

/-- The action taken by one (gate-passing) pass of `WIFIMANAGER::loop`. -/
inductive LoopAction where
  | apResetTimer
  | apStop
  | apWait
  | staHealthy
  | staUnknown
  | tcSuccess
  | tcFailStartAp
  | tcFailIdle
deriving DecidableEq, Repr

/-- Dispatch of `WIFIMANAGER::loop` (wifimanager.cpp:412-444) once the
check-interval gate has passed.  `tcResult` is the value returned by
`tryConnect()` in the branch that invokes it. -/
def loopDispatch (obs : LoopObs) (slots : List ApCredential)
    (createFallbackAP : Bool) (tcResult : Bool) : LoopAction :=
  if obs.mode = .ap then
    if getSoftApTimeRemaining obs.startedAp obs.now = 0 then
      if 0 < obs.clients then .apResetTimer else .apStop
    else .apWait
  else if obs.mode = .sta then
    if obs.connected = true ∧ obs.ssid ≠ "" ∧
        (∃ e ∈ slots, e.apName = obs.ssid) then .staHealthy
    else .staUnknown
  else
    if tcResult then .tcSuccess
    else if createFallbackAP then .tcFailStartAp
    else .tcFailIdle

/-- The value of `startApTimeMillis` after the pass: wifimanager.cpp:419
resets it to `millis()` exactly when the AP branch found the timeout
expired with at least one client attached. -/
def loopNewStartAp (obs : LoopObs) : Nat :=
  if obs.mode = .ap ∧ getSoftApTimeRemaining obs.startedAp obs.now = 0 ∧
      0 < obs.clients then
    obs.now
  else obs.startedAp

/-- In these actions `tryConnect()` was invoked by the loop. -/
def invokesTryConnect : LoopAction → Bool
  | .tcSuccess => true
  | .tcFailStartAp => true
  | .tcFailIdle => true
  | _ => false

/-- In this action the loop called `startSoftAP()`. -/
def startsSoftAp : LoopAction → Bool
  | .tcFailStartAp => true
  | _ => false

/-- Two stored credentials used as concrete test data. -/
def slotsW : List ApCredential := [⟨"A", "pw"⟩, ⟨"B", "pw2"⟩]

/-- A scan seeing both stored names, the weaker (-70) one first. -/
def scanW : List ScanResult := [⟨"B", 0, -70⟩, ⟨"A", 0, -50⟩]

/-- A single stored credential with an empty secret. -/
def slotsW2 : List ApCredential := [⟨"Home", ""⟩]

/-- A scan seeing only that name as a closed (WPA2, type 3) network. -/
def scanW2 : List ScanResult := [⟨"Home", 3, -50⟩]

theorem getD_map_lt {α β : Type} (f : α → β) (dA : α) (dB : β) :
    ∀ (l : List α) (i : Nat), i < l.length →
      (l.map f).getD i dB = f (l.getD i dA) := by
  intro l
  induction l with
  | nil => intro i h; simp at h
  | cons a tl ih =>
    intro i h
    cases i with
    | zero => simp
    | succ n =>
      simp only [List.map_cons, List.getD_cons_succ]
      exact ih n (by simpa using h)

theorem getD_set_lt {α : Type} (d a : α) :
    ∀ (l : List α) (i : Nat), i < l.length → (l.set i a).getD i d = a := by
  intro l
  induction l with
  | nil => intro i h; simp at h
  | cons b tl ih =>
    intro i h
    cases i with
    | zero => simp
    | succ n =>
      simp only [List.set_cons_succ, List.getD_cons_succ]
      exact ih n (by simpa using h)

theorem firstEmptySlot_of_all_populated :
    ∀ (l : List ApCredential) (k : Nat), (∀ e ∈ l, e.apName ≠ "") →
      firstEmptySlot l k = none := by
  intro l
  induction l with
  | nil => intro k _; rfl
  | cons e tl ih =>
    intro k h
    have he : e.apName ≠ "" := h e (List.mem_cons_self e tl)
    simp only [firstEmptySlot, if_neg he]
    exact ih (k + 1) (fun x hx => h x (List.mem_cons_of_mem e hx))

theorem firstEmptySlot_at :
    ∀ (l : List ApCredential) (k i : Nat), i < l.length →
      (l.getD i emptySlot).apName = "" →
      (∀ j, j < i → (l.getD j emptySlot).apName ≠ "") →
      firstEmptySlot l k = some (k + i) := by
  intro l
  induction l with
  | nil => intro k i h; simp at h
  | cons e tl ih =>
    intro k i hi he hb
    cases i with
    | zero =>
      simp only [List.getD_cons_zero] at he
      simp [firstEmptySlot, he]
    | succ n =>
      have hne : e.apName ≠ "" := by
        have := hb 0 (Nat.succ_pos n)
        simpa using this
      simp only [firstEmptySlot, if_neg hne]
      have := ih (k + 1) n (by simpa using hi)
        (by simpa using he)
        (fun j hj => by
          have := hb (j + 1) (Nat.succ_lt_succ hj)
          simpa using this)
      rw [this]
      congr 1
      omega

theorem firstEmptySlot_none_all :
    ∀ (l : List ApCredential) (k : Nat), firstEmptySlot l k = none →
      ∀ e ∈ l, e.apName ≠ "" := by
  intro l
  induction l with
  | nil => intro k _ e he; cases he
  | cons a tl ih =>
    intro k h e he
    simp only [firstEmptySlot] at h
    by_cases ha : a.apName = ""
    · rw [if_pos ha] at h; cases h
    · rw [if_neg ha] at h
      rcases List.mem_cons.mp he with h1 | h1
      · subst h1; exact ha
      · exact ih (k + 1) h e h1

theorem firstEmptySlot_mem_some (l : List ApCredential) (k : Nat)
    (h : ∃ e ∈ l, e.apName = "") : ∃ m, firstEmptySlot l k = some m := by
  cases hfe : firstEmptySlot l k with
  | some m => exact ⟨m, rfl⟩
  | none =>
    obtain ⟨e, hmem, hname⟩ := h
    exact absurd hname (firstEmptySlot_none_all l k hfe e hmem)

theorem firstEmptySlot_spec :
    ∀ (l : List ApCredential) (k m : Nat), firstEmptySlot l k = some m →
      k ≤ m ∧ m - k < l.length ∧ (l.getD (m - k) emptySlot).apName = "" ∧
        ∀ j, j < m - k → (l.getD j emptySlot).apName ≠ "" := by
  intro l
  induction l with
  | nil => intro k m h; simp [firstEmptySlot] at h
  | cons e tl ih =>
    intro k m h
    simp only [firstEmptySlot] at h
    by_cases he : e.apName = ""
    · rw [if_pos he] at h
      injection h with h
      subst h
      refine ⟨Nat.le_refl _, by simp, ?_, ?_⟩
      · simp only [Nat.sub_self, List.getD_cons_zero]
        exact he
      · intro j hj; omega
    · rw [if_neg he] at h
      obtain ⟨h1, h2, h3, h4⟩ := ih (k + 1) m h
      have hk : k ≤ m := by omega
      have hmk : m - k = (m - (k + 1)) + 1 := by omega
      refine ⟨hk, ?_, ?_, ?_⟩
      · simp only [List.length_cons]; omega
      · rw [hmk]; simpa using h3
      · intro j hj
        cases j with
        | zero => simpa using he
        | succ n =>
          have : n < m - (k + 1) := by omega
          simpa using h4 n this

theorem foldSlots_eq (r : ScanResult) :
    ∀ (ps : List (Nat × ApCredential)) (acc : Int × Int),
      ps.foldl (slotStep r) acc =
        if acc.2 < r.rssi then
          (match firstElig ps r with
           | some p => ((p.1 : Int), r.rssi)
           | none => acc)
        else acc := by
  intro ps
  induction ps with
  | nil =>
    intro acc
    simp only [List.foldl_nil, firstElig, List.find?_nil]
    split <;> rfl
  | cons p tl ih =>
    intro acc
    simp only [List.foldl_cons]
    by_cases h1 : p.2.apName.length = 0 ∨ p.2.apName ≠ r.ssid
    · have hstep : slotStep r acc p = acc := by
        unfold slotStep
        rw [if_pos h1]
      have hne : ¬EligPair r p := by
        unfold EligPair
        rcases h1 with h | h
        · exact fun hE => hE.1 h
        · exact fun hE => h hE.2.1
      have hfind : firstElig (p :: tl) r = firstElig tl r := by
        unfold firstElig
        rw [List.find?_cons_of_neg]
        simpa using hne
      rw [hstep, ih acc, hfind]
    · push_neg at h1
      have hnm : ¬(p.2.apName.length = 0 ∨ p.2.apName ≠ r.ssid) := by
        push_neg
        exact h1
      by_cases h2 : acc.2 < r.rssi
      · by_cases h3 : r.encryptionType = WIFI_AUTH_OPEN ∨ 0 < p.2.apPass.length
        · have hstep : slotStep r acc p = ((p.1 : Int), r.rssi) := by
            unfold slotStep
            rw [if_neg hnm, if_pos h2, if_pos h3]
          have hE : EligPair r p := ⟨h1.1, h1.2, h3⟩
          have hfind : firstElig (p :: tl) r = some p := by
            unfold firstElig
            rw [List.find?_cons_of_pos]
            exact decide_eq_true hE
          rw [hstep, ih ((p.1 : Int), r.rssi), hfind, if_pos h2]
          rw [if_neg (lt_irrefl r.rssi)]
        · have hstep : slotStep r acc p = acc := by
            unfold slotStep
            rw [if_neg hnm, if_pos h2, if_neg h3]
          have hne : ¬EligPair r p := fun hE => h3 hE.2.2
          have hfind : firstElig (p :: tl) r = firstElig tl r := by
            unfold firstElig
            rw [List.find?_cons_of_neg]
            simpa using hne
          rw [hstep, ih acc, hfind]
      · have hstep : slotStep r acc p = acc := by
          unfold slotStep
          rw [if_neg hnm, if_neg h2]
        rw [hstep, ih acc, if_neg h2, if_neg h2]

theorem select_fold_cases (ps : List (Nat × ApCredential)) :
    ∀ (scan : List ScanResult) (acc : Int × Int),
      (scan.foldl (scanStep ps) acc = acc ∧
        ∀ r ∈ scan, elig ps r = true → r.rssi ≤ acc.2)
      ∨ (∃ pre x post p, scan = pre ++ x :: post ∧
          firstElig ps x = some p ∧
          acc.2 < x.rssi ∧
          scan.foldl (scanStep ps) acc = ((p.1 : Int), x.rssi) ∧
          (∀ r ∈ scan, elig ps r = true → r.rssi ≤ x.rssi) ∧
          (∀ r ∈ pre, elig ps r = true → r.rssi < x.rssi)) := by
  intro scan
  induction scan with
  | nil =>
    intro acc
    left
    exact ⟨rfl, by intro r hr; cases hr⟩
  | cons r rest ih =>
    intro acc
    by_cases h2 : acc.2 < r.rssi
    · cases hfe : firstElig ps r with
      | some p =>
        have hacc1 : scanStep ps acc r = ((p.1 : Int), r.rssi) := by
          unfold scanStep
          rw [foldSlots_eq r ps acc, if_pos h2, hfe]
        rcases ih ((p.1 : Int), r.rssi) with ⟨heq, hb⟩ |
          ⟨pre, x, post, q, hsp, hfq, hlt2, heqf, hball, hpre⟩
        · right
          refine ⟨[], r, rest, p, rfl, hfe, h2, ?_, ?_, ?_⟩
          · rw [List.foldl_cons, hacc1, heq]
          · intro s hs he
            rcases List.mem_cons.mp hs with h | h
            · subst h; exact le_refl _
            · exact hb s h he
          · intro s hs; cases hs
        · right
          refine ⟨r :: pre, x, post, q, by rw [hsp, List.cons_append], hfq,
            lt_trans h2 hlt2, ?_, ?_, ?_⟩
          · rw [List.foldl_cons, hacc1, heqf]
          · intro s hs he
            rcases List.mem_cons.mp hs with h | h
            · subst h; exact le_of_lt hlt2
            · exact hball s h he
          · intro s hs he
            rcases List.mem_cons.mp hs with h | h
            · subst h; exact hlt2
            · exact hpre s h he
      | none =>
        have hacc1 : scanStep ps acc r = acc := by
          unfold scanStep
          rw [foldSlots_eq r ps acc, if_pos h2, hfe]
        have heligr : elig ps r = false := by
          unfold elig
          rw [hfe]
          rfl
        rcases ih acc with ⟨heq, hb⟩ |
          ⟨pre, x, post, q, hsp, hfq, hlt2, heqf, hball, hpre⟩
        · left
          refine ⟨by rw [List.foldl_cons, hacc1, heq], ?_⟩
          intro s hs he
          rcases List.mem_cons.mp hs with h | h
          · subst h; rw [heligr] at he; cases he
          · exact hb s h he
        · right
          refine ⟨r :: pre, x, post, q, by rw [hsp, List.cons_append], hfq, hlt2, ?_, ?_, ?_⟩
          · rw [List.foldl_cons, hacc1, heqf]
          · intro s hs he
            rcases List.mem_cons.mp hs with h | h
            · subst h; rw [heligr] at he; cases he
            · exact hball s h he
          · intro s hs he
            rcases List.mem_cons.mp hs with h | h
            · subst h; rw [heligr] at he; cases he
            · exact hpre s h he
    · have hacc1 : scanStep ps acc r = acc := by
        unfold scanStep
        rw [foldSlots_eq r ps acc, if_neg h2]
      rcases ih acc with ⟨heq, hb⟩ |
        ⟨pre, x, post, q, hsp, hfq, hlt2, heqf, hball, hpre⟩
      · left
        refine ⟨by rw [List.foldl_cons, hacc1, heq], ?_⟩
        intro s hs he
        rcases List.mem_cons.mp hs with h | h
        · subst h; exact le_of_not_lt h2
        · exact hb s h he
      · right
        refine ⟨r :: pre, x, post, q, by rw [hsp, List.cons_append], hfq, hlt2, ?_, ?_, ?_⟩
        · rw [List.foldl_cons, hacc1, heqf]
        · intro s hs he
          rcases List.mem_cons.mp hs with h | h
          · subst h; exact le_trans (le_of_not_lt h2) (le_of_lt hlt2)
          · exact hball s h he
        · intro s hs he
          rcases List.mem_cons.mp hs with h | h
          · subst h; exact lt_of_le_of_lt (le_of_not_lt h2) hlt2
          · exact hpre s h he

theorem foldl_keeps_of_none (ps : List (Nat × ApCredential)) :
    ∀ (scan : List ScanResult) (acc : Int × Int),
      (∀ r ∈ scan, firstElig ps r = none) →
      scan.foldl (scanStep ps) acc = acc := by
  intro scan
  induction scan with
  | nil => intro acc _; rfl
  | cons r rest ih =>
    intro acc h
    have h1 : scanStep ps acc r = acc := by
      unfold scanStep
      rw [foldSlots_eq r ps acc, h r (List.mem_cons_self r rest)]
      split <;> rfl
    rw [List.foldl_cons, h1]
    exact ih acc (fun x hx => h x (List.mem_cons_of_mem r hx))

theorem strLength_pos_iff (s : String) : 0 < s.length ↔ s ≠ "" := by
  cases s with
  | mk d =>
    constructor
    · intro h he
      rw [he] at h
      exact absurd h (by decide)
    · intro h
      cases d with
      | nil => exact absurd rfl h
      | cons c tl => simp [String.length]

theorem getD_mem {α : Type} (d : α) :
    ∀ (l : List α) (i : Nat), i < l.length → l.getD i d ∈ l := by
  intro l
  induction l with
  | nil => intro i h; simp at h
  | cons a tl ih =>
    intro i h
    cases i with
    | zero => simp
    | succ n =>
      simp only [List.getD_cons_succ]
      exact List.mem_cons_of_mem a (ih n (by simpa using h))

/-- C1: among scan results whose ssid exactly matches a stored name and
which are eligible (open network or non-empty stored secret), the
selection loops of `tryConnect` pick the one with the strongest RSSI;
every eligible scan result signals at most as strongly as the winner,
and every eligible scan result strictly before the winner signals
strictly weaker — so a strictly greater RSSI replaces the incumbent, an
equal RSSI keeps the first found, and the winning RSSI is the maximum
independently of scan order. -/
theorem tryConnect_selects_strongest (slots : List ApCredential)
    (scan : List ScanResult)
    (hr : ∀ r ∈ scan, intMin < r.rssi)
    (hne : ∃ r ∈ scan, elig slots.enum r = true) :
    ∃ pre x post p, scan = pre ++ x :: post ∧
      firstElig slots.enum x = some p ∧
      selectCandidate slots scan = ((p.1 : Int), x.rssi) ∧
      (∀ r ∈ scan, elig slots.enum r = true → r.rssi ≤ x.rssi) ∧
      (∀ r ∈ pre, elig slots.enum r = true → r.rssi < x.rssi) := by
  unfold selectCandidate
  rcases select_fold_cases slots.enum scan (intMin, intMin) with ⟨heq, hb⟩ |
    ⟨pre, x, post, p, hsp, hfp, hlt, heq, hball, hpre⟩
  · obtain ⟨r, hmem, helig⟩ := hne
    exact absurd (hb r hmem helig) (not_le_of_lt (hr r hmem))
  · exact ⟨pre, x, post, p, hsp, hfp, heq, hball, hpre⟩

theorem tryConnect_selects_strongest_witness :
    (∀ r ∈ scanW, intMin < r.rssi) ∧
    (∃ r ∈ scanW, elig slotsW.enum r = true) ∧
    (∃ pre x post p, scanW = pre ++ x :: post ∧
      firstElig slotsW.enum x = some p ∧
      selectCandidate slotsW scanW = ((p.1 : Int), x.rssi) ∧
      (∀ r ∈ scanW, elig slotsW.enum r = true → r.rssi ≤ x.rssi) ∧
      (∀ r ∈ pre, elig slotsW.enum r = true → r.rssi < x.rssi)) :=
  ⟨by decide, by decide,
   tryConnect_selects_strongest slotsW scanW (by decide) (by decide)⟩

/-- C2: when every scan result that matches a populated stored name is
closed (not `WIFI_AUTH_OPEN`) and its stored secret is empty, the
selection loops leave `(choosenAp, choosenRssi)` at `(INT_MIN, INT_MIN)`
and the scan path of `tryConnect` ends with no candidates, so no
connection attempt is made. -/
theorem closed_without_secret_no_candidate (slots : List ApCredential)
    (scan : List ScanResult)
    (h : ∀ r ∈ scan, ∀ p ∈ slots.enum, p.2.apName = r.ssid →
      p.2.apName.length ≠ 0 →
      r.encryptionType ≠ WIFI_AUTH_OPEN ∧ p.2.apPass = "") :
    selectCandidate slots scan = (intMin, intMin) ∧
    tryConnectMulti slots scan = .noCandidates := by
  have hnone : ∀ r ∈ scan, firstElig slots.enum r = none := by
    intro r hrmem
    unfold firstElig
    rw [List.find?_eq_none]
    intro p hp
    simp only [decide_eq_true_eq]
    intro hE
    obtain ⟨hlen, hname, hopen⟩ := hE
    obtain ⟨hclosed, hpass⟩ := h r hrmem p hp hname hlen
    rcases hopen with ho | ho
    · exact hclosed ho
    · rw [hpass] at ho
      exact absurd ho (by decide)
  have hsel : selectCandidate slots scan = (intMin, intMin) :=
    foldl_keeps_of_none slots.enum scan (intMin, intMin) hnone
  refine ⟨hsel, ?_⟩
  unfold tryConnectMulti
  rw [hsel]
  rfl

theorem closed_without_secret_no_candidate_witness :
    (∀ r ∈ scanW2, ∀ p ∈ slotsW2.enum, p.2.apName = r.ssid →
      p.2.apName.length ≠ 0 →
      r.encryptionType ≠ WIFI_AUTH_OPEN ∧ p.2.apPass = "") ∧
    (selectCandidate slotsW2 scanW2 = (intMin, intMin) ∧
     tryConnectMulti slotsW2 scanW2 = .noCandidates) :=
  ⟨by decide, closed_without_secret_no_candidate slotsW2 scanW2 (by decide)⟩

/-- C6: `addWifi` fails with `InvalidName` for a name length outside
[1,31]; fails with `InvalidSecret` for a secret longer than 63; fails
with `StoreFull` when every slot is populated, leaving the state
untouched; and otherwise writes the entry to the lowest-index empty
slot and increments `configuredSSIDs`. -/
theorem addWifi_contract (st : WMState) (name pass : String) (u : Bool) :
    (name.length < 1 ∨ 31 < name.length →
       addWifi st name pass u = (st, .invalidName)) ∧
    (1 ≤ name.length → name.length ≤ 31 → 63 < pass.length →
       addWifi st name pass u = (st, .invalidSecret)) ∧
    (1 ≤ name.length → name.length ≤ 31 → pass.length ≤ 63 →
       (∀ e ∈ st.apList, e.apName ≠ "") →
       addWifi st name pass u = (st, .storeFull)) ∧
    (1 ≤ name.length → name.length ≤ 31 → pass.length ≤ 63 →
       ∀ i, i < st.apList.length →
       (st.apList.getD i emptySlot).apName = "" →
       (∀ j, j < i → (st.apList.getD j emptySlot).apName ≠ "") →
       (addWifi st name pass u).2 = .ok ∧
       (addWifi st name pass u).1.apList = st.apList.set i ⟨name, pass⟩ ∧
       (addWifi st name pass u).1.configuredSSIDs = st.configuredSSIDs + 1) := by
  refine ⟨?_, ?_, ?_, ?_⟩
  · intro h
    unfold addWifi
    rw [if_pos h]
  · intro h1 h2 h3
    have hc : ¬(name.length < 1 ∨ 31 < name.length) := by omega
    unfold addWifi
    rw [if_neg hc, if_pos h3]
  · intro h1 h2 h3 hall
    have hc : ¬(name.length < 1 ∨ 31 < name.length) := by omega
    have hp : ¬(63 < pass.length) := by omega
    have hfe := firstEmptySlot_of_all_populated st.apList 0 hall
    unfold addWifi
    rw [if_neg hc, if_neg hp, hfe]
  · intro h1 h2 h3 i hi he hb
    have hc : ¬(name.length < 1 ∨ 31 < name.length) := by omega
    have hp : ¬(63 < pass.length) := by omega
    have hfe := firstEmptySlot_at st.apList 0 i hi he hb
    rw [Nat.zero_add] at hfe
    unfold addWifi
    rw [if_neg hc, if_neg hp, hfe]
    cases u <;> simp [writeToNVS]

theorem addWifi_contract_witness :
    addWifi st0 "" "p" true = (st0, .invalidName) ∧
    addWifi st0 "net" (String.mk (List.replicate 64 'a')) true
      = (st0, .invalidSecret) ∧
    (addWifi st0 "net" "pw" true).2 = .ok ∧
    (addWifi st0 "net" "pw" true).1.configuredSSIDs = 1 := by
  refine ⟨?_, ?_, ?_, ?_⟩
  · exact (addWifi_contract st0 "" "p" true).1 (by decide)
  · exact (addWifi_contract st0 "net" (String.mk (List.replicate 64 'a'))
      true).2.1 (by decide) (by decide) (by decide)
  · exact ((addWifi_contract st0 "net" "pw" true).2.2.2 (by decide) (by decide)
      (by decide) 0 (by decide) (by decide) (by intro j hj; omega)).1
  · exact ((addWifi_contract st0 "net" "pw" true).2.2.2 (by decide) (by decide)
      (by decide) 0 (by decide) (by decide) (by intro j hj; omega)).2.2.trans
      (by decide)

/-- C8: for any name of length 1..31 and secret of length at most 63,
`addWifi` with persistence followed by `loadFromNVS` (a restart) yields
a table still containing the entry, with the same name and secret in
the same slot. -/
theorem addWifi_load_roundtrip (st : WMState) (name pass : String)
    (hn1 : 1 ≤ name.length) (hn2 : name.length ≤ 31) (hp : pass.length ≤ 63)
    (hfree : ∃ e ∈ st.apList, e.apName = "") :
    (addWifi st name pass true).2 = .ok ∧
    ∃ i, i < st.apList.length ∧
      (addWifi st name pass true).1.apList.getD i emptySlot = ⟨name, pass⟩ ∧
      (loadFromNVS (addWifi st name pass true).1).apList.getD i emptySlot
        = ⟨name, pass⟩ := by
  obtain ⟨m, hfe⟩ := firstEmptySlot_mem_some st.apList 0 hfree
  obtain ⟨-, hm, -, -⟩ := firstEmptySlot_spec st.apList 0 m hfe
  rw [Nat.sub_zero] at hm
  have hname : name ≠ "" := by
    intro h
    rw [h] at hn1
    exact absurd hn1 (by decide)
  have hc : ¬(name.length < 1 ∨ 31 < name.length) := by omega
  have hpc : ¬(63 < pass.length) := by omega
  have key : addWifi st name pass true =
      (writeToNVS { st with
         apList := st.apList.set m ⟨name, pass⟩,
         configuredSSIDs := st.configuredSSIDs + 1 }, .ok) := by
    unfold addWifi
    rw [if_neg hc, if_neg hpc, hfe]
    rfl
  rw [key]
  refine ⟨rfl, m, hm, ?_, ?_⟩
  · simp only [writeToNVS]
    exact getD_set_lt emptySlot ⟨name, pass⟩ st.apList m hm
  · simp only [loadFromNVS, writeToNVS]
    rw [getD_map_lt _ none emptySlot _ m (by simp [hm]),
        getD_map_lt _ emptySlot none _ m (by simp [hm]),
        getD_set_lt emptySlot ⟨name, pass⟩ st.apList m hm]
    rw [if_neg hname]
    have h0 : 0 < name.length := hn1
    simp [h0]

theorem addWifi_load_roundtrip_witness :
    (∃ e ∈ st0.apList, e.apName = "") ∧
    ((addWifi st0 "net" "pw" true).2 = .ok ∧
     ∃ i, i < st0.apList.length ∧
       (addWifi st0 "net" "pw" true).1.apList.getD i emptySlot = ⟨"net", "pw"⟩ ∧
       (loadFromNVS (addWifi st0 "net" "pw" true).1).apList.getD i emptySlot
         = ⟨"net", "pw"⟩) :=
  ⟨by decide,
   addWifi_load_roundtrip st0 "net" "pw" (by decide) (by decide) (by decide)
     (by decide)⟩

/-- C5 (code bug): after `addWifi` then `delWifi(0)` the cached
`configuredSSIDs` is still 1 while full enumeration of the table finds
0 populated slots — `delWifi` never decrements the counter. -/
theorem configuredSSIDs_drift :
    (delWifiId (addWifi st0 "net" "pw" true).1 0).1.configuredSSIDs = 1 ∧
    populatedCount (delWifiId (addWifi st0 "net" "pw" true).1 0).1.apList = 0 := by
  decide

/-- C7 (code bug): `delWifi(String)` on a table holding the name twice
clears both slots and reports success, but `configuredSSIDs` stays at 2
instead of being decremented by the number of slots removed. -/
theorem delWifiName_counter_drift :
    (delWifiName (addWifi (addWifi st0 "dup" "p1" true).1 "dup" "p2" true).1
      "dup").2 = true ∧
    (delWifiName (addWifi (addWifi st0 "dup" "p1" true).1 "dup" "p2" true).1
      "dup").1.configuredSSIDs = 2 ∧
    populatedCount (delWifiName (addWifi (addWifi st0 "dup" "p1" true).1
      "dup" "p2" true).1 "dup").1.apList = 0 := by
  decide

theorem getApEntryAux_unique :
    ∀ (l : List ApCredential) (k : Nat),
      l.countP (fun e => decide (e.apName ≠ "")) = 1 →
      ∃ i, i < l.length ∧ getApEntryAux l k = k + i ∧
        (l.getD i emptySlot).apName ≠ "" ∧
        ∀ j, j < l.length → j ≠ i → (l.getD j emptySlot).apName = "" := by
  intro l
  induction l with
  | nil => intro k h; simp at h
  | cons e tl ih =>
    intro k h
    rw [List.countP_cons] at h
    by_cases he : e.apName = ""
    · have hd : (decide (e.apName ≠ "")) = false := by simp [he]
      rw [hd] at h
      simp only [if_neg Bool.false_ne_true, Nat.add_zero] at h
      obtain ⟨i, hi, haux, hpop, huniq⟩ := ih (k + 1) h
      have hlen : ¬0 < e.apName.length := by
        rw [he]
        decide
      refine ⟨i + 1, by simpa using Nat.succ_lt_succ hi, ?_, by simpa using hpop, ?_⟩
      · simp only [getApEntryAux, if_neg hlen]
        rw [haux]
        omega
      · intro j hj hne
        cases j with
        | zero => simpa using he
        | succ n =>
          have hn : n < tl.length := by simpa using hj
          have hni : n ≠ i := fun hh => hne (by rw [hh])
          simpa using huniq n hn hni
    · have hd : (decide (e.apName ≠ "")) = true := by simp [he]
      rw [hd] at h
      rw [if_pos rfl] at h
      have hz : tl.countP (fun e => decide (e.apName ≠ "")) = 0 := by omega
      have hall : ∀ x ∈ tl, x.apName = "" := by
        intro x hx
        have := List.countP_eq_zero.mp hz x hx
        simpa using this
      have hlen : 0 < e.apName.length := (strLength_pos_iff e.apName).mpr he
      refine ⟨0, by simp, ?_, by simpa using he, ?_⟩
      · simp [getApEntryAux, hlen]
      · intro j hj hne
        cases j with
        | zero => exact absurd rfl hne
        | succ n =>
          have hn : n < tl.length := by simpa using hj
          simpa using hall (tl.getD n emptySlot) (getD_mem emptySlot tl n hn)

/-- C9 counterexample: after `addWifi("a")`, `addWifi("b")`,
`delWifi("a")` exactly one credential is populated, yet
`configuredSSIDs` is stale at 2, so `tryConnect` takes the scan path
instead of the direct single-credential path. -/
theorem tryConnect_single_scan_cex :
    populatedCount (delWifiName (addWifi (addWifi st0 "a" "x" true).1 "b" "y"
      true).1 "a").1.apList = 1 ∧
    tryConnectPlan (delWifiName (addWifi (addWifi st0 "a" "x" true).1 "b" "y"
      true).1 "a").1 = .scan := by
  decide

/-- C9 (amended): when exactly one credential is populated AND the
cached `configuredSSIDs` counter equals 1 (the counter has not drifted
through deletions), `tryConnect` skips scanning and directly targets
`getApEntry`, which is the lowest — and only — populated slot index. -/
theorem tryConnect_single_direct (st : WMState)
    (hcnt : st.configuredSSIDs = 1)
    (hpop : populatedCount st.apList = 1) :
    tryConnectPlan st = .direct (getApEntry st.apList) ∧
    getApEntry st.apList < st.apList.length ∧
    (st.apList.getD (getApEntry st.apList) emptySlot).apName ≠ "" ∧
    ∀ j, j < st.apList.length → j ≠ getApEntry st.apList →
      (st.apList.getD j emptySlot).apName = "" := by
  obtain ⟨i, hi, haux, hp, hu⟩ := getApEntryAux_unique st.apList 0 hpop
  have hga : getApEntry st.apList = i := by
    unfold getApEntry
    rw [haux]
    omega
  have hplan : tryConnectPlan st = .direct (getApEntry st.apList) := by
    unfold tryConnectPlan
    rw [hcnt]
    rfl
  refine ⟨hplan, ?_, ?_, ?_⟩ <;> rw [hga]
  · exact hi
  · exact hp
  · exact hu

theorem tryConnect_single_direct_witness :
    ((addWifi st0 "solo" "pw" true).1.configuredSSIDs = 1 ∧
     populatedCount (addWifi st0 "solo" "pw" true).1.apList = 1) ∧
    (tryConnectPlan (addWifi st0 "solo" "pw" true).1
       = .direct (getApEntry (addWifi st0 "solo" "pw" true).1.apList) ∧
     getApEntry (addWifi st0 "solo" "pw" true).1.apList
       < (addWifi st0 "solo" "pw" true).1.apList.length ∧
     ((addWifi st0 "solo" "pw" true).1.apList.getD
        (getApEntry (addWifi st0 "solo" "pw" true).1.apList)
        emptySlot).apName ≠ "" ∧
     ∀ j, j < (addWifi st0 "solo" "pw" true).1.apList.length →
       j ≠ getApEntry (addWifi st0 "solo" "pw" true).1.apList →
       ((addWifi st0 "solo" "pw" true).1.apList.getD j emptySlot).apName
         = "") :=
  ⟨⟨by decide, by decide⟩,
   tryConnect_single_direct (addWifi st0 "solo" "pw" true).1 (by decide)
     (by decide)⟩

theorem apElapsed_no_wrap (s n : Nat) (h1 : s ≤ n) (h2 : n < UINT64_MOD) :
    apElapsed s n = n - s := by
  unfold apElapsed UINT64_MOD at *
  omega

theorem softApRemaining_zero_of_elapsed (s n : Nat) (h1 : s ≤ n)
    (h2 : n < UINT64_MOD) (h3 : 120000 ≤ n - s)
    (h4 : n - s ≤ UINT64_MOD - 119881000) :
    getSoftApTimeRemaining s n = 0 := by
  unfold getSoftApTimeRemaining apRemainRaw apElapsed UINT64_MOD at *
  split <;> omega

/-- C10 counterexample: for the timer pair `startApTimeMillis = 1`,
`millis() = 0` the wrapped `uint64_t` elapsed time is `2^64 - 1`, far
past the 120000 ms timeout, yet `getSoftApTimeRemaining` returns 120
seconds instead of the clamped 0 — the `time > timeoutApMillis` clamp
misses small wrapped differences. -/
theorem softApRemaining_wrap_cex :
    120000 ≤ apElapsed 1 0 ∧ getSoftApTimeRemaining 1 0 = 120 := by
  constructor
  · decide
  · decide

/-- C10 (amended): for timer values below `2^64`, whenever the
`uint64_t` elapsed time `millis() - startApTimeMillis` is at least the
120000 ms timeout AND at most `2^64 - 119881000` (every humanly
reachable value; beyond it the clamp misfires as the counterexample
shows), the function returns 0; when the elapsed time is below the
timeout it returns the remaining whole seconds
`(timeout - elapsed) / 1000`. -/
theorem softApRemaining_amended (startedAp now : Nat)
    (h1 : startedAp < UINT64_MOD) (h2 : now < UINT64_MOD) :
    (120000 ≤ apElapsed startedAp now →
       apElapsed startedAp now ≤ UINT64_MOD - 119881000 →
       getSoftApTimeRemaining startedAp now = 0) ∧
    (apElapsed startedAp now < 120000 →
       getSoftApTimeRemaining startedAp now
         = (120000 - apElapsed startedAp now) / 1000) := by
  have hEllt : apElapsed startedAp now < UINT64_MOD := by
    unfold apElapsed
    exact Nat.mod_lt _ (by decide)
  constructor
  · intro ha hb
    unfold getSoftApTimeRemaining apRemainRaw
    generalize hgen : apElapsed startedAp now = E at ha hb hEllt ⊢
    simp only [UINT64_MOD] at hb hEllt ⊢
    by_cases heq : E = 120000
    · subst heq
      decide
    · have hgt : 120000 < E := by omega
      have hDlt : 120000 + (18446744073709551616 - E)
          < 18446744073709551616 := by omega
      rw [Nat.mod_eq_of_lt hDlt]
      rw [if_pos (by omega)]
  · intro ha
    unfold getSoftApTimeRemaining apRemainRaw
    generalize hgen : apElapsed startedAp now = E at ha hEllt ⊢
    simp only [UINT64_MOD] at hEllt ⊢
    have hx : 120000 + (18446744073709551616 - E)
        = 18446744073709551616 + (120000 - E) := by omega
    rw [hx, Nat.add_mod_left,
        Nat.mod_eq_of_lt (by omega : 120000 - E < 18446744073709551616)]
    rw [if_neg (by omega)]

theorem softApRemaining_amended_witness :
    getSoftApTimeRemaining 0 200000 = 0 ∧
    getSoftApTimeRemaining 0 60000 = 60 :=
  ⟨(softApRemaining_amended 0 200000 (by decide) (by decide)).1 (by decide)
     (by decide),
   ((softApRemaining_amended 0 60000 (by decide) (by decide)).2
     (by decide)).trans (by decide)⟩

/-- C3 counterexample: a tick observing station mode while unassociated
(`waitForConnectResult() != WL_CONNECTED`): the radio is unassociated
to any network and not in access-point mode, yet the loop takes the
"connected to an unknown SSID, ignoring" branch — it neither invokes
`tryConnect` nor starts the fallback AP, even with fallback enabled. -/
theorem loop_sta_unassociated_cex :
    (⟨.sta, false, "", 0, 0, 0⟩ : LoopObs).connected = false ∧
    (⟨.sta, false, "", 0, 0, 0⟩ : LoopObs).mode ≠ .ap ∧
    loopDispatch ⟨.sta, false, "", 0, 0, 0⟩ [] true false = .staUnknown ∧
    invokesTryConnect (loopDispatch ⟨.sta, false, "", 0, 0, 0⟩ [] true false)
      = false ∧
    startsSoftAp (loopDispatch ⟨.sta, false, "", 0, 0, 0⟩ [] true false)
      = false := by
  decide

/-- C3 (amended): on every tick that observes the radio in neither
access-point mode nor station mode, the loop invokes `tryConnect`; if
it reports failure and fallback-to-AP is enabled the soft AP is
started, and otherwise the tick leaves the system idle.  (A tick that
observes station mode without an association instead logs and no-ops.) -/
theorem loop_invokes_tryconnect (obs : LoopObs) (slots : List ApCredential)
    (fb tc : Bool) (hap : obs.mode ≠ .ap) (hsta : obs.mode ≠ .sta) :
    invokesTryConnect (loopDispatch obs slots fb tc) = true ∧
    (tc = false → fb = true → loopDispatch obs slots fb tc = .tcFailStartAp) ∧
    (tc = false → fb = false → loopDispatch obs slots fb tc = .tcFailIdle) ∧
    (tc = true → loopDispatch obs slots fb tc = .tcSuccess) := by
  have hd : loopDispatch obs slots fb tc =
      (if tc then .tcSuccess else if fb then .tcFailStartAp
       else .tcFailIdle) := by
    unfold loopDispatch
    rw [if_neg hap, if_neg hsta]
  rw [hd]
  cases tc <;> cases fb <;> simp [invokesTryConnect]

theorem loop_invokes_tryconnect_witness :
    invokesTryConnect
      (loopDispatch ⟨.nullMode, false, "", 0, 0, 0⟩ [] true false) = true ∧
    loopDispatch ⟨.nullMode, false, "", 0, 0, 0⟩ [] true false
      = .tcFailStartAp :=
  ⟨(loop_invokes_tryconnect ⟨.nullMode, false, "", 0, 0, 0⟩ [] true false
      (by decide) (by decide)).1,
   (loop_invokes_tryconnect ⟨.nullMode, false, "", 0, 0, 0⟩ [] true false
      (by decide) (by decide)).2.1 rfl rfl⟩

/-- C4: on a tick that finds the AP session past its timeout (elapsed
time above 120000 ms, within the non-wrapping range), the loop stops
the soft AP when zero clients are attached, and with at least one
client attached it keeps the AP and resets `startApTimeMillis` to now;
moreover, for every observation whatsoever, an AP with a client
attached is never stopped by the timeout branch. -/
theorem loop_ap_timeout_policy (obs : LoopObs) (slots : List ApCredential)
    (fb tc : Bool) (hmode : obs.mode = .ap)
    (hle : obs.startedAp ≤ obs.now) (hnow : obs.now < UINT64_MOD)
    (helapsed : 120000 < obs.now - obs.startedAp)
    (hbound : obs.now - obs.startedAp ≤ UINT64_MOD - 119881000) :
    (obs.clients = 0 → loopDispatch obs slots fb tc = .apStop) ∧
    (0 < obs.clients → loopDispatch obs slots fb tc = .apResetTimer ∧
       loopNewStartAp obs = obs.now) ∧
    (∀ o : LoopObs, 0 < o.clients → loopDispatch o slots fb tc ≠ .apStop) := by
  have hrem : getSoftApTimeRemaining obs.startedAp obs.now = 0 :=
    softApRemaining_zero_of_elapsed obs.startedAp obs.now hle hnow
      (by omega) hbound
  refine ⟨?_, ?_, ?_⟩
  · intro hc
    unfold loopDispatch
    rw [if_pos hmode, if_pos hrem, if_neg (by omega)]
  · intro hc
    constructor
    · unfold loopDispatch
      rw [if_pos hmode, if_pos hrem, if_pos hc]
    · unfold loopNewStartAp
      rw [if_pos ⟨hmode, hrem, hc⟩]
  · intro o hc
    unfold loopDispatch
    by_cases hm : o.mode = .ap
    · rw [if_pos hm]
      by_cases hz : getSoftApTimeRemaining o.startedAp o.now = 0
      · rw [if_pos hz, if_pos hc]
        decide
      · rw [if_neg hz]
        decide
    · rw [if_neg hm]
      by_cases hs : o.mode = .sta
      · rw [if_pos hs]
        split <;> decide
      · rw [if_neg hs]
        cases tc <;> cases fb <;> decide

theorem loop_ap_timeout_policy_witness :
    loopDispatch ⟨.ap, false, "", 0, 1000, 130000⟩ [] true false
      = .apStop ∧
    loopDispatch ⟨.ap, false, "", 3, 1000, 130000⟩ [] true false
      = .apResetTimer ∧
    loopNewStartAp ⟨.ap, false, "", 3, 1000, 130000⟩ = 130000 :=
  ⟨(loop_ap_timeout_policy ⟨.ap, false, "", 0, 1000, 130000⟩ [] true false
      rfl (by decide) (by decide) (by decide) (by decide)).1 rfl,
   ((loop_ap_timeout_policy ⟨.ap, false, "", 3, 1000, 130000⟩ [] true false
      rfl (by decide) (by decide) (by decide) (by decide)).2.1
      (by decide)).1,
   ((loop_ap_timeout_policy ⟨.ap, false, "", 3, 1000, 130000⟩ [] true false
      rfl (by decide) (by decide) (by decide) (by decide)).2.1
      (by decide)).2⟩
